import Mathlib

/-!
The program pod_scanner: a shallow embedding of `cmd/main.go`.

The scanner walks the namespaces of a Kubernetes cluster, probes the pods of
the selected ones and scales the Deployment of a non-compliant pod to zero.

* Go strings are Lean `String`s (valid UTF-8 text, what the API machinery
  decodes from JSON); the functions of package `strings` the program calls are
  defined on their characters.
* A Go map `map[string]string` is an association list read with `List.lookup`;
  the nil map is `[]`.
* A Go `error` is an `Option String` (`none` is `nil`). What the API server
  answers to a request is an `Except String T`; what a Go function returns as
  a pair `(*T, error)` is a pair of both components, the pointer being an
  `Option T` where it can be `nil`.
* The cluster is an abstract client over a state `σ`: every call takes the
  state and returns its answer and the next state, so any call may fail at any
  time. Every function of the program returns, next to its result and the
  next state, the list of the events it produced (API calls and log lines).
-/

set_option autoImplicit false

namespace PodScanner

/-! ## Package `unicode`: the case tables -/

/-- The case tables of Go's package `unicode` for the runes outside ASCII.
They are not part of the repository and are taken as a parameter.
`toLower r` is `unicode.ToLower(r)` for `r ≥ 0x80`. `foldReaches lo hi`, for
`lo < hi` and `hi ≥ 0x80`, is the outcome of the orbit walk of
`strings.EqualFold`: `r := unicode.SimpleFold(lo); for r != lo && r < hi
{ r = unicode.SimpleFold(r) }; r == hi`. -/
structure CaseTables where
  toLower : Char → Char
  foldReaches : Char → Char → Bool

/-- Case tables that leave every rune outside ASCII alone, for evaluating the
program on ASCII text (where the tables are never consulted). -/
def CaseTables.ascii : CaseTables where
  toLower := fun c => c
  foldReaches := fun _ _ => false

/-! ## Package `strings` -/

namespace strings

/-- Go's `utf8.RuneSelf`: characters below it are one byte. -/
def RuneSelf : Nat := 0x80

/-- Does `sub` occur in `s` as a contiguous run of characters. -/
def containsChars (s sub : List Char) : Bool :=
  s.tails.any (fun t => sub.isPrefixOf t)

/-- Go's `strings.Contains(s, substr)`. -/
def Contains (s substr : String) : Bool :=
  containsChars s.data substr.data

/-- Go's `unicode.ToLower` on one rune: the ASCII branch is the library's,
the rest is the case table. -/
def toLowerRune (U : CaseTables) (c : Char) : Char :=
  if c.toNat < RuneSelf then
    (if 'A'.toNat ≤ c.toNat ∧ c.toNat ≤ 'Z'.toNat then Char.ofNat (c.toNat + 32) else c)
  else U.toLower c

/-- Go's `strings.ToLower(s)`. -/
def ToLower (U : CaseTables) (s : String) : String :=
  ⟨s.data.map (toLowerRune U)⟩

/-- The ASCII test of `strings.EqualFold` on two different characters put in
order `lo < hi`: `'A' <= lo && lo <= 'Z' && hi == lo+'a'-'A'`. -/
def asciiFold (lo hi : Char) : Bool :=
  decide ('A'.toNat ≤ lo.toNat) && decide (lo.toNat ≤ 'Z'.toNat) && decide (hi.toNat = lo.toNat + 32)

/-- The loop of `strings.EqualFold` after the label `hasUnicode`. -/
def equalFoldUnicode (U : CaseTables) : List Char → List Char → Bool
  | [], t => t.isEmpty
  | _ :: _, [] => false
  | sr :: s, tr :: t =>
    if tr = sr then equalFoldUnicode U s t
    else
      let lo := if tr.toNat < sr.toNat then tr else sr
      let hi := if tr.toNat < sr.toNat then sr else tr
      if hi.toNat < RuneSelf then
        (if asciiFold lo hi then equalFoldUnicode U s t else false)
      else if U.foldReaches lo hi then equalFoldUnicode U s t
      else false

/-- The first loop of `strings.EqualFold` (the ASCII fast path), which hands
over to `equalFoldUnicode` at the first character outside ASCII. -/
def equalFoldChars (U : CaseTables) : List Char → List Char → Bool
  | [], [] => true
  | [], _ :: _ => false
  | _ :: _, [] => false
  | sr :: s, tr :: t =>
    if RuneSelf ≤ sr.toNat ∨ RuneSelf ≤ tr.toNat then equalFoldUnicode U (sr :: s) (tr :: t)
    else if tr = sr then equalFoldChars U s t
    else
      let lo := if tr.toNat < sr.toNat then tr else sr
      let hi := if tr.toNat < sr.toNat then sr else tr
      if asciiFold lo hi then equalFoldChars U s t else false

/-- Go's `strings.EqualFold(s, t)`. -/
def EqualFold (U : CaseTables) (s t : String) : Bool :=
  equalFoldChars U s.data t.data

/-- The pieces of `s` between the occurrences of the character `sep`;
`cur` holds the piece being read, reversed. -/
def splitChars (sep : Char) : List Char → List Char → List String
  | cur, [] => [⟨cur.reverse⟩]
  | cur, c :: rest =>
    if c = sep then ⟨cur.reverse⟩ :: splitChars sep [] rest
    else splitChars sep (c :: cur) rest

/-- Go's `strings.Split(s, sep)` for a separator of one character, which is
what both call sites pass (`","` and `"="`). -/
def Split (s : String) (sep : Char) : List String :=
  splitChars sep [] s.data

/-- Go's `strings.ReplaceAll(s, old, new)` for `old` and `new` of one
character each, as at both call sites. -/
def ReplaceAll (s : String) (old new : Char) : String :=
  ⟨s.data.map (fun c => if c = old then new else c)⟩

end strings

/-! ## The objects of the cluster -/

/-- A wall-clock reading, `time.Time` broken down into the fields
`Format` prints; `Offset` is the zone offset in seconds east of UTC. -/
structure Time where
  Year : Nat
  Month : Nat
  Day : Nat
  Hour : Nat
  Minute : Nat
  Second : Nat
  Offset : Int
  deriving DecidableEq, Repr

/-- One entry of `metav1.ObjectMeta.OwnerReferences`. -/
structure OwnerReference where
  Kind : String
  Name : String
  deriving DecidableEq, Repr

/-- One entry of `corev1.PodSpec.Containers`. -/
structure Container where
  Name : String
  deriving DecidableEq, Repr

/-- The fields of `corev1.Pod` the program reads. `Containers` is
`pod.Spec.Containers`. -/
structure Pod where
  Namespace : String
  Name : String
  Labels : List (String × String)
  Annotations : List (String × String)
  DeletionTimestamp : Option Time
  OwnerReferences : List OwnerReference
  Containers : List Container
  deriving DecidableEq, Repr

/-- The fields of `appsv1.ReplicaSet` the program reads. -/
structure ReplicaSet where
  Namespace : String
  Name : String
  OwnerReferences : List OwnerReference
  deriving DecidableEq, Repr

/-- The fields of `appsv1.Deployment` the program reads or patches.
`Replicas` is `deployment.Spec.Replicas`, a `*int32`. -/
structure Deployment where
  Namespace : String
  Name : String
  Labels : List (String × String)
  Annotations : List (String × String)
  Replicas : Option Int
  deriving DecidableEq, Repr

/-- Go's `appsv1.ReplicaSet{}`, the object the typed client allocates for the
result of a `Get`. -/
def ReplicaSet.zero : ReplicaSet :=
  { Namespace := "", Name := "", OwnerReferences := [] }

/-- Go's `appsv1.Deployment{}`, the object the typed client allocates for the
result of a `Get`. -/
def Deployment.zero : Deployment :=
  { Namespace := "", Name := "", Labels := [], Annotations := [], Replicas := none }

/-! ## Constants -/

def protectedNamespaces : String := "kube-system,kube-public,monitoring"

def criticalLabels : String := "app.kubernetes.io/component=monitoring"

/-! ## The pure functions -/

/-- Source: `isProtectedNamespace`. -/
def isProtectedNamespace (U : CaseTables) (name : String) : Bool :=
  (strings.Split protectedNamespaces ',').any (fun ns => strings.EqualFold U ns name)

/-- The two filtering loops of `getTargetNamespaces`, on the names of the
listed namespaces. -/
def selectNamespaces (U : CaseTables) (names : List String) : List String :=
  let targets := names.filter (fun ns => !isProtectedNamespace U ns)
  targets.filter (fun ns => strings.Contains ns "_test")

/-- Source: `hasCriticalLabels`. The loop returns at the first rule the map
satisfies; a rule that does not split into two parts is passed over. -/
def hasCriticalLabels (labelMap : List (String × String)) : Bool :=
  (strings.Split criticalLabels ',').any (fun l =>
    match strings.Split l '=' with
    | [key, value] =>
      (match labelMap.lookup key with
       | some val => val == value
       | none => false)
    | _ => false)

/-- Source: `isDeploymentPod`. -/
def isDeploymentPod (pod : Pod) : Bool :=
  pod.OwnerReferences.any (fun ref => ref.Kind == "ReplicaSet")

/-- Source: `shouldSkipPod`. -/
def shouldSkipPod (pod : Pod) : Bool :=
  if pod.DeletionTimestamp.isSome then true
  else if hasCriticalLabels pod.Labels then true
  else !isDeploymentPod pod

/-- Step 1 of `getMainContainer`: the first container with the annotated name,
when the annotation is there and names one. -/
def annotatedContainer (pod : Pod) : Option Container :=
  match pod.Annotations.lookup "app.kubernetes.io/main-container" with
  | some name => pod.Containers.find? (fun c => c.Name == name)
  | none => none

/-- Source: `getMainContainer`. -/
def getMainContainer (U : CaseTables) (pod : Pod) : String :=
  match annotatedContainer pod with
  | some c => c.Name
  | none =>
    match pod.Containers.find? (fun c => strings.Contains (strings.ToLower U c.Name) "main") with
    | some c => c.Name
    | none =>
      match pod.Containers with
      | c :: _ => c.Name
      | [] => ""

/-! ## Time stamps -/

/-- Go's `appendInt(b, x, width)` of package `time` for `x ≥ 0`: decimal,
padded with zeros on the left up to `width` digits. -/
def appendInt (x width : Nat) : String :=
  let digits := Nat.toDigits 10 x
  ⟨List.replicate (width - digits.length) '0' ++ digits⟩

/-- The layout element `Z07` of `Time.Format`: `Z` at offset zero, otherwise
the sign and the hours of the offset (Go's integer division truncates). -/
def formatZone (offset : Int) : String :=
  if offset = 0 then "Z"
  else
    let zone := Int.tdiv offset 60
    if zone < 0 then "-" ++ appendInt ((-zone).toNat / 60) 2
    else "+" ++ appendInt (zone.toNat / 60) 2

/-- Go's `t.Format("20060102T150405Z07")`: year, month, day, `T`, hour,
minute, second, zone. -/
def Time.Format (t : Time) : String :=
  appendInt t.Year 4 ++ appendInt t.Month 2 ++ appendInt t.Day 2 ++ "T" ++
    appendInt t.Hour 2 ++ appendInt t.Minute 2 ++ appendInt t.Second 2 ++ formatZone t.Offset

/-- The value of `now` in `scaleDeployment` once both `ReplaceAll` ran. -/
def timestamp (t : Time) : String :=
  strings.ReplaceAll (strings.ReplaceAll t.Format ':' '-') '+' '-'

/-! ## Merge documents -/

/-- A JSON value, as far as the patch template needs it. -/
inductive JSON where
  | str : String → JSON
  | num : Int → JSON
  | obj : List (String × JSON) → JSON

/-- A JSON value that is not an object. -/
inductive Scalar where
  | str : String → Scalar
  | num : Int → Scalar
  deriving DecidableEq, Repr

/-- The member `key` of a JSON object. -/
def JSON.field (key : String) : JSON → Option JSON
  | .obj fields => fields.lookup key
  | _ => none

mutual
/-- Every scalar a document holds, each with the path of member names that
leads to it: the fields a merge with this document writes. -/
def JSON.leaves : JSON → List (List String × Scalar)
  | .str s => [([], .str s)]
  | .num n => [([], .num n)]
  | .obj fields => JSON.leavesOfFields fields
/-- The leaves of the members of an object. -/
def JSON.leavesOfFields : List (String × JSON) → List (List String × Scalar)
  | [] => []
  | (key, value) :: rest =>
    (value.leaves.map (fun p => (key :: p.1, p.2))) ++ JSON.leavesOfFields rest
end

/-- The kind of patch a `Patch` call announces (`types.PatchType`). -/
inductive PatchType where
  | JSONPatchType
  | MergePatchType
  | StrategicMergePatchType
  | ApplyPatchType
  deriving DecidableEq, Repr

/-- The document `scaleDeployment` builds with `fmt.Sprintf`, as the JSON value
its text denotes. -/
def patchDocument (now : String) (replicas : Int) : JSON :=
  .obj [
    ("metadata", .obj [
      ("labels", .obj [
        ("pinpoint-scanner/status", .str "killed by pod-scanner"),
        ("pinpoint-scanner/last-terminated", .str now)])]),
    ("spec", .obj [
      ("replicas", .num replicas)])]

/-! ## The cluster client and the events of a run -/

/-- What opening an exec channel and streaming a command gives:
`remotecommand.NewSPDYExecutor` fails, or `executor.Stream` ends with the two
captured streams and its error. -/
inductive ExecOutcome where
  | executorError (err : String)
  | streamed (stdout stderr : String) (err : Option String)
  deriving DecidableEq, Repr

/-- The client the program is handed, over a cluster state `σ`. Each call
returns the answer of the API server and the next state. `NamespacesList`
gives the names of the listed namespaces; `Now` is `time.Now()`. The pair a
`Get` of the typed client returns is built from the answer by
`Clientset.GetReplicaSet` and `Clientset.GetDeployment`. -/
structure Clientset (σ : Type) where
  NamespacesList : σ → Except String (List String) × σ
  PodsList : String → σ → Except String (List Pod) × σ
  ReplicaSetsGet : String → String → σ → Except String ReplicaSet × σ
  DeploymentsGet : String → String → σ → Except String Deployment × σ
  DeploymentsPatch : String → String → PatchType → JSON → σ → Option String × σ
  Exec : Pod → String → List String → σ → ExecOutcome × σ
  Now : σ → Time × σ

/-- The lines the program writes with `log.Printf`, by their arguments. -/
inductive LogLine where
  | scanNamespace (ns : String)
  | listPodsFailed (ns err : String)
  | skipPod (ns name : String)
  | checkPod (ns name : String)
  | nonCompliantPod (ns name : String)
  | handleFailed (err : String)
  | noValidContainer (ns name : String)
  | detection (java pinpoint : Bool)
  | alreadyScaled (ns name : String)
  | scaling (ns name : String)
  deriving DecidableEq, Repr

/-- What a run does that can be observed: the calls it makes to the cluster
and the lines it logs. A pod listing is recorded with its answer. -/
inductive Event where
  | NamespacesList
  | PodsList (ns : String) (answer : Except String (List Pod))
  | ReplicaSetsGet (ns name : String)
  | DeploymentsGet (ns name : String)
  | DeploymentsPatch (ns name : String) (pt : PatchType) (data : JSON)
  | Exec (ns pod container : String) (cmd : List String)
  | Log (line : LogLine)

/-- The outcome of running a function of the program from a state: its return
value, the state it leaves and the events it produced, oldest first. -/
structure Run (σ α : Type) where
  val : α
  state : σ
  events : List Event

/-- The `Patch` calls among some events: namespace, name, patch type, document. -/
def patchCalls (events : List Event) : List (String × String × PatchType × JSON) :=
  events.filterMap (fun e =>
    match e with
    | .DeploymentsPatch ns name pt data => some (ns, name, pt, data)
    | _ => none)

/-- The namespaces whose pods were asked for, in the order of the calls. -/
def listedNamespaces (events : List Event) : List String :=
  events.filterMap (fun e =>
    match e with
    | .PodsList ns _ => some ns
    | _ => none)

/-- The pods the successful pod listings returned, in the order received. -/
def listedPods : List Event → List Pod
  | [] => []
  | .PodsList _ (.ok pods) :: rest => pods ++ listedPods rest
  | _ :: rest => listedPods rest

/-- The pods handed to the compliance check, by namespace and name, in order. -/
def checkedPods (events : List Event) : List (String × String) :=
  events.filterMap (fun e =>
    match e with
    | .Log (.checkPod ns name) => some (ns, name)
    | _ => none)

/-- The failures a run logged: the pod listings and the remediations that
did not succeed. -/
def loggedFailures (events : List Event) : List LogLine :=
  events.filterMap (fun e =>
    match e with
    | .Log (.listPodsFailed ns err) => some (.listPodsFailed ns err)
    | .Log (.handleFailed err) => some (.handleFailed err)
    | _ => none)

/-- The events that are neither a pod listing nor the line that announces the
check of a pod. -/
def Event.inner : Event → Bool
  | .PodsList _ _ => false
  | .Log (.checkPod _ _) => false
  | _ => true

section Program

variable {σ : Type}

/-! ## The functions that talk to the cluster -/

/-- Source: `execCommand`. -/
def execCommand (c : Clientset σ) (pod : Pod) (container : String) (cmd : List String)
    (s : σ) : Run σ (Except String String) :=
  let r := c.Exec pod container cmd s
  let ev := [Event.Exec pod.Namespace pod.Name container cmd]
  match r.1 with
  | .executorError err => ⟨.error err, r.2, ev⟩
  | .streamed _ stderr (some err) => ⟨.error ("执行错误: " ++ stderr ++ " | " ++ err), r.2, ev⟩
  | .streamed stdout _ none => ⟨.ok stdout, r.2, ev⟩

/-- Source: `checkJavaProcess`; true when the command ended without error. -/
def checkJavaProcess (c : Clientset σ) (pod : Pod) (container : String) (s : σ) : Run σ Bool :=
  let r := execCommand c pod container ["sh", "-c", "ps -ef | grep -v grep | grep infinity"] s
  ⟨(match r.val with
    | .ok _ => true
    | .error _ => false), r.state, r.events⟩

/-- Source: `checkPinpointAgent`. -/
def checkPinpointAgent (c : Clientset σ) (pod : Pod) (container : String) (s : σ) : Run σ Bool :=
  let r := execCommand c pod container ["sh", "-c", "ps -ef | grep -v grep | grep pinpoint"] s
  ⟨(match r.val with
    | .ok _ => true
    | .error _ => false), r.state, r.events⟩

/-- Source: `isJavaWithoutPinpoint`. -/
def isJavaWithoutPinpoint (U : CaseTables) (c : Clientset σ) (pod : Pod) (s : σ) : Run σ Bool :=
  let mainContainer := getMainContainer U pod
  if mainContainer = "" then
    ⟨false, s, [.Log (.noValidContainer pod.Namespace pod.Name)]⟩
  else
    let java := checkJavaProcess c pod mainContainer s
    let pinpoint := checkPinpointAgent c pod mainContainer java.state
    ⟨java.val && !pinpoint.val, pinpoint.state,
      java.events ++ pinpoint.events ++ [.Log (.detection java.val pinpoint.val)]⟩

/-- Go's `clientset.AppsV1().ReplicaSets(ns).Get(ctx, name, opts)`, a pair
`(*appsv1.ReplicaSet, error)`. The typed client allocates the result, so the
pointer is never `nil`; it refuses an empty name before any request is sent;
otherwise it decodes the answer of the server into the result, which on
failure stays as allocated. -/
def Clientset.GetReplicaSet (c : Clientset σ) (ns name : String) (s : σ) :
    (ReplicaSet × Option String) × σ :=
  if name = "" then ((ReplicaSet.zero, some "resource name may not be empty"), s)
  else
    let answer := c.ReplicaSetsGet ns name s
    match answer.1 with
    | .ok rs => ((rs, none), answer.2)
    | .error err => ((ReplicaSet.zero, some err), answer.2)

/-- Go's `clientset.AppsV1().Deployments(ns).Get(ctx, name, opts)`, a pair
`(*appsv1.Deployment, error)`, built as in `Clientset.GetReplicaSet`. -/
def Clientset.GetDeployment (c : Clientset σ) (ns name : String) (s : σ) :
    (Deployment × Option String) × σ :=
  if name = "" then ((Deployment.zero, some "resource name may not be empty"), s)
  else
    let answer := c.DeploymentsGet ns name s
    match answer.1 with
    | .ok d => ((d, none), answer.2)
    | .error err => ((Deployment.zero, some err), answer.2)

/-- Source: `findParentDeployment`. The value is Go's pair
`(*appsv1.Deployment, error)`: `none` in the first place is the `nil` pointer
of the three `return nil, ...`; the last `return` hands on the pair of the
Deployment `Get` as it is. -/
def findParentDeployment (c : Clientset σ) (pod : Pod) (s : σ) :
    Run σ (Option Deployment × Option String) :=
  let rsName :=
    match pod.OwnerReferences.find? (fun ref => ref.Kind == "ReplicaSet") with
    | some ref => ref.Name
    | none => ""
  if rsName = "" then ⟨(none, some "Pod不是由Deployment管理"), s, []⟩
  else
    let rs := c.GetReplicaSet pod.Namespace rsName s
    match rs.1.2 with
    | some err => ⟨(none, some err), rs.2, [.ReplicaSetsGet pod.Namespace rsName]⟩
    | none =>
      match rs.1.1.OwnerReferences.find? (fun ref => ref.Kind == "Deployment") with
      | some ref =>
        let d := c.GetDeployment pod.Namespace ref.Name rs.2
        ⟨(some d.1.1, d.1.2), d.2,
          [.ReplicaSetsGet pod.Namespace rsName, .DeploymentsGet pod.Namespace ref.Name]⟩
      | none => ⟨(none, some "未找到父级Deployment"), rs.2, [.ReplicaSetsGet pod.Namespace rsName]⟩

/-- Source: `scaleDeployment`. -/
def scaleDeployment (c : Clientset σ) (deployment : Deployment) (replicas : Int) (s : σ) :
    Run σ (Option String) :=
  let t := c.Now s
  let now := timestamp t.1
  let patch := patchDocument now replicas
  let r := c.DeploymentsPatch deployment.Namespace deployment.Name
    PatchType.StrategicMergePatchType patch t.2
  ⟨r.1, r.2, [.DeploymentsPatch deployment.Namespace deployment.Name
    PatchType.StrategicMergePatchType patch]⟩

/-- Source: `handleNonCompliantPod`. The error is tested first; a `nil`
pointer without error, which `findParentDeployment` never returns, would end
the call at the dereference of `deployment.Spec`. -/
def handleNonCompliantPod (c : Clientset σ) (pod : Pod) (s : σ) : Run σ (Option String) :=
  let found := findParentDeployment c pod s
  match found.val with
  | (_, some err) => ⟨some ("找不到关联Deployment: " ++ err), found.state, found.events⟩
  | (none, none) => ⟨some "nil pointer dereference", found.state, found.events⟩
  | (some deployment, none) =>
    if deployment.Replicas = some 0 then
      ⟨none, found.state,
        found.events ++ [.Log (.alreadyScaled deployment.Namespace deployment.Name)]⟩
    else
      let scaled := scaleDeployment c deployment 0 found.state
      ⟨scaled.val, scaled.state,
        found.events ++ [.Log (.scaling deployment.Namespace deployment.Name)] ++ scaled.events⟩

/-- Two calls of `handleNonCompliantPod` for the same pod, one after the other. -/
def handleNonCompliantPodTwice {σ : Type} (c : Clientset σ) (pod : Pod) (s : σ) :
    Run σ (Option String × Option String) :=
  let first := handleNonCompliantPod c pod s
  let second := handleNonCompliantPod c pod first.state
  ⟨(first.val, second.val), second.state, first.events ++ second.events⟩

/-- Source: `getTargetNamespaces`. -/
def getTargetNamespaces (U : CaseTables) (c : Clientset σ) (s : σ) :
    Run σ (Except String (List String)) :=
  let nsList := c.NamespacesList s
  match nsList.1 with
  | .error err => ⟨.error err, nsList.2, [.NamespacesList]⟩
  | .ok names => ⟨.ok (selectNamespaces U names), nsList.2, [.NamespacesList]⟩

/-- The body of the inner loop of `scanCluster`, for one pod. -/
def scanPod (U : CaseTables) (c : Clientset σ) (pod : Pod) (s : σ) : Run σ Unit :=
  if shouldSkipPod pod then ⟨(), s, [.Log (.skipPod pod.Namespace pod.Name)]⟩
  else
    let checked := isJavaWithoutPinpoint U c pod s
    if checked.val then
      let handled := handleNonCompliantPod c pod checked.state
      ⟨(), handled.state,
        [.Log (.checkPod pod.Namespace pod.Name)] ++ checked.events ++
        [.Log (.nonCompliantPod pod.Namespace pod.Name)] ++ handled.events ++
        (match handled.val with
         | some err => [.Log (.handleFailed err)]
         | none => [])⟩
    else
      ⟨(), checked.state, [.Log (.checkPod pod.Namespace pod.Name)] ++ checked.events⟩

/-- The inner loop of `scanCluster`: `for _, pod := range pods.Items`. -/
def scanPods (U : CaseTables) (c : Clientset σ) : List Pod → σ → Run σ Unit
  | [], s => ⟨(), s, []⟩
  | pod :: rest, s =>
    let first := scanPod U c pod s
    let others := scanPods U c rest first.state
    ⟨(), others.state, first.events ++ others.events⟩

/-- The body of the outer loop of `scanCluster`, for one namespace. -/
def scanNamespace (U : CaseTables) (c : Clientset σ) (ns : String) (s : σ) : Run σ Unit :=
  let pods := c.PodsList ns s
  match pods.1 with
  | .error err =>
    ⟨(), pods.2, [.Log (.scanNamespace ns), .PodsList ns pods.1, .Log (.listPodsFailed ns err)]⟩
  | .ok items =>
    let scanned := scanPods U c items pods.2
    ⟨(), scanned.state, [.Log (.scanNamespace ns), .PodsList ns pods.1] ++ scanned.events⟩

/-- The outer loop of `scanCluster`: `for _, ns := range namespaces`. -/
def scanNamespaces (U : CaseTables) (c : Clientset σ) : List String → σ → Run σ Unit
  | [], s => ⟨(), s, []⟩
  | ns :: rest, s =>
    let first := scanNamespace U c ns s
    let others := scanNamespaces U c rest first.state
    ⟨(), others.state, first.events ++ others.events⟩

/-- Source: `scanCluster`. -/
def scanCluster (U : CaseTables) (c : Clientset σ) (s : σ) : Run σ (Option String) :=
  let targets := getTargetNamespaces U c s
  match targets.val with
  | .error err => ⟨some err, targets.state, targets.events⟩
  | .ok namespaces =>
    let scanned := scanNamespaces U c namespaces targets.state
    ⟨none, scanned.state, targets.events ++ scanned.events⟩

end Program

/-! ## A cluster held in memory

The state a test double of the API keeps: the stored objects, the clock, the
namespaces whose pod listing is out of order and the processes each pod runs.
`Get` returns the stored object with the asked namespace and name; a `Patch`
that finds its target succeeds and applies the merge document to it. -/

/-- The stored objects of a cluster and what its calls answer. -/
structure Cluster where
  Namespaces : Except String (List String)
  Pods : List Pod
  Unlistable : List String
  ReplicaSets : List ReplicaSet
  Deployments : List Deployment
  Processes : List (String × String × List String)
  ReadOnly : Bool
  Clock : Time

/-- The string members of a JSON object, as map entries. -/
def stringMembers (fields : List (String × JSON)) : List (String × String) :=
  fields.filterMap (fun kv =>
    match kv.2 with
    | .str v => some (kv.1, v)
    | _ => none)

/-- The map a merge writes: the entries of the document come first, so that
`lookup` reads them before the old ones. -/
def mergeMap (doc : Option JSON) (old : List (String × String)) : List (String × String) :=
  match doc with
  | some (.obj fields) => stringMembers fields ++ old
  | _ => old

/-- A merge document applied to a stored Deployment: `spec.replicas`,
`metadata.labels` and `metadata.annotations` are written where the document
has them, every other field is kept. -/
def applyMerge (doc : JSON) (d : Deployment) : Deployment :=
  { d with
    Labels := mergeMap ((doc.field "metadata").bind (JSON.field "labels")) d.Labels
    Annotations := mergeMap ((doc.field "metadata").bind (JSON.field "annotations")) d.Annotations
    Replicas :=
      match (doc.field "spec").bind (JSON.field "replicas") with
      | some (.num n) => some n
      | _ => d.Replicas }

/-- The cluster after a merge document was applied to the Deployment `ns/name`. -/
def Cluster.patched (s : Cluster) (ns name : String) (doc : JSON) : Cluster :=
  { s with Deployments := s.Deployments.map (fun d =>
      if d.Namespace == ns && d.Name == name then applyMerge doc d else d) }

/-- What a probe finds: does the container of the pod run a process whose name
occurs in the command line. -/
def Cluster.runs (s : Cluster) (pod : Pod) (container : String) (cmd : List String) : Bool :=
  match s.Processes.find? (fun p => p.1 == pod.Name && p.2.1 == container) with
  | some p => p.2.2.any (fun proc => cmd.any (fun line => strings.Contains line proc))
  | none => false

/-- The client of a cluster held in memory. -/
def Cluster.client : Clientset Cluster where
  NamespacesList := fun s => (s.Namespaces, s)
  PodsList := fun ns s =>
    if ns ∈ s.Unlistable then (.error "pod listing failed", s)
    else (.ok (s.Pods.filter (fun p => p.Namespace == ns)), s)
  ReplicaSetsGet := fun ns name s =>
    match s.ReplicaSets.find? (fun r => r.Namespace == ns && r.Name == name) with
    | some r => (.ok r, s)
    | none => (.error "replicaset not found", s)
  DeploymentsGet := fun ns name s =>
    match s.Deployments.find? (fun d => d.Namespace == ns && d.Name == name) with
    | some d => (.ok d, s)
    | none => (.error "deployment not found", s)
  DeploymentsPatch := fun ns name _ doc s =>
    if s.ReadOnly then (some "patch refused", s)
    else if s.Deployments.any (fun d => d.Namespace == ns && d.Name == name) then
      (none, s.patched ns name doc)
    else (some "deployment not found", s)
  Exec := fun pod container cmd s =>
    if s.runs pod container cmd then (.streamed "found" "" none, s)
    else (.streamed "" "" (some "command terminated with exit code 1"), s)
  Now := fun s => (s.Clock, s)

/-! ## Sample objects

Concrete pods and clusters on which the statements below are evaluated. -/

/-- A Deployment asking for three replicas. -/
def sampleDeployment : Deployment :=
  { Namespace := "billing_test", Name := "api", Labels := [], Annotations := [],
    Replicas := some 3 }

/-- The ReplicaSet of `sampleDeployment`. -/
def sampleReplicaSet : ReplicaSet :=
  { Namespace := "billing_test", Name := "api-7d4b9c",
    OwnerReferences := [{ Kind := "Deployment", Name := "api" }] }

/-- A pod of `sampleReplicaSet` with one container. -/
def samplePod : Pod :=
  { Namespace := "billing_test", Name := "api-7d4b9c-x2x9z", Labels := [], Annotations := [],
    DeletionTimestamp := none,
    OwnerReferences := [{ Kind := "ReplicaSet", Name := "api-7d4b9c" }],
    Containers := [{ Name := "app" }] }

/-- A reading of the clock: 2 January 2024, 03:04:05, eight hours east of UTC. -/
def sampleTime : Time :=
  { Year := 2024, Month := 1, Day := 2, Hour := 3, Minute := 4, Second := 5, Offset := 28800 }

/-- A cluster with the sample objects; the pod runs a process the first probe
finds and none the second finds. -/
def sampleCluster : Cluster :=
  { Namespaces := .ok ["kube-system", "billing_test"],
    Pods := [samplePod],
    Unlistable := [],
    ReplicaSets := [sampleReplicaSet],
    Deployments := [sampleDeployment],
    Processes := [("api-7d4b9c-x2x9z", "app", ["infinity"])],
    ReadOnly := false,
    Clock := sampleTime }

/-- A pod with nil labels, no owner reference and no container. -/
def barePod : Pod :=
  { Namespace := "", Name := "", Labels := [], Annotations := [], DeletionTimestamp := none,
    OwnerReferences := [], Containers := [] }

/-- A pod whose only container has the empty name. -/
def unnamedContainerPod : Pod :=
  { Namespace := "billing_test", Name := "job", Labels := [], Annotations := [],
    DeletionTimestamp := none, OwnerReferences := [], Containers := [{ Name := "" }] }

/-- A pod that names its main container `worker` by annotation and has the
containers `main-app` and `worker`. -/
def workerPod : Pod :=
  { Namespace := "billing_test", Name := "api-7d4b9c-x2x9z", Labels := [],
    Annotations := [("app.kubernetes.io/main-container", "worker")],
    DeletionTimestamp := none,
    OwnerReferences := [{ Kind := "ReplicaSet", Name := "api-7d4b9c" }],
    Containers := [{ Name := "main-app" }, { Name := "worker" }] }

/-- The sample cluster after its Deployment was deleted: the pod and its
ReplicaSet are left, the `Get` of the Deployment fails. -/
def orphanCluster : Cluster :=
  { sampleCluster with Deployments := [] }

/-- The sample cluster without its ReplicaSet: the `Get` of the ReplicaSet
fails. -/
def strayCluster : Cluster :=
  { sampleCluster with ReplicaSets := [] }

/-- The sample cluster with the Deployment already at 0 replicas. -/
def scaledCluster : Cluster :=
  { sampleCluster with Deployments := [{ sampleDeployment with Replicas := some 0 }] }

/-- A cluster with three selected namespaces: the pods of the first cannot be
listed, the pod of the second is non-compliant and its remediation is refused,
the third holds one more pod. -/
def faultyCluster : Cluster :=
  { Namespaces := .ok ["a_test", "b_test", "kube-system", "c_test"],
    Pods := [{ samplePod with Namespace := "b_test" },
             { samplePod with Namespace := "c_test", Name := "web-5f6d7c-k8s2p" }],
    Unlistable := ["a_test"],
    ReplicaSets := [{ sampleReplicaSet with Namespace := "b_test" }],
    Deployments := [{ sampleDeployment with Namespace := "b_test" }],
    Processes := [("api-7d4b9c-x2x9z", "app", ["infinity"])],
    ReadOnly := true,
    Clock := sampleTime }

/-! ## Lemmas on the string functions -/

theorem toNat_ofNat_small (n : Nat) (h : n < 0xd800) : (Char.ofNat n).toNat = n := by
  have hv : n.isValidChar := Or.inl h
  simp [Char.ofNat, hv, Char.ofNatAux, Char.toNat, UInt32.toNat]

/-- A text whose characters lower-case, by the ASCII rule alone, to a text of
ASCII without capital letters is equal to it under folding, whatever the case
tables say. -/
theorem equalFoldChars_of_lower (U : CaseTables) :
    ∀ (p n : List Char),
      (∀ a ∈ p, a.toNat < 128 ∧ ¬ (65 ≤ a.toNat ∧ a.toNat ≤ 90)) →
      n.map (strings.toLowerRune CaseTables.ascii) = p →
      strings.equalFoldChars U p n = true
  | [], [], _, _ => rfl
  | [], _ :: _, _, h => by simp at h
  | _ :: _, [], _, h => by simp at h
  | a :: p, c :: n, hp, h => by
    have ih := equalFoldChars_of_lower U p n (fun x hx => hp x (List.mem_cons_of_mem _ hx))
    simp only [List.map_cons, List.cons.injEq] at h
    obtain ⟨hc, hn⟩ := h
    have ha := hp a (List.mem_cons_self _ _)
    specialize ih hn
    unfold strings.toLowerRune at hc
    simp only [strings.RuneSelf, CaseTables.ascii] at hc
    by_cases h128 : c.toNat < 128
    · by_cases hup : 65 ≤ c.toNat ∧ c.toNat ≤ 90
      · have hup2 : 'A'.toNat ≤ c.toNat ∧ c.toNat ≤ 'Z'.toNat := hup
        rw [if_pos h128, if_pos hup2] at hc
        have hat : a.toNat = c.toNat + 32 := by
          rw [← hc]; exact toNat_ofNat_small _ (by omega)
        have hne : c ≠ a := fun e => by rw [e] at hat; omega
        have hlt : c.toNat < a.toNat := by omega
        simp [strings.equalFoldChars, strings.RuneSelf, hne, hlt, strings.asciiFold, hat, ih,
          hup.1, hup.2]
        omega
      · have hup2 : ¬ ('A'.toNat ≤ c.toNat ∧ c.toNat ≤ 'Z'.toNat) := hup
        rw [if_pos h128, if_neg hup2] at hc
        subst hc
        simp [strings.equalFoldChars, strings.RuneSelf, ih]
        omega
    · rw [if_neg h128] at hc
      subst hc
      exact absurd ha.1 h128

theorem split_protectedNamespaces :
    strings.Split protectedNamespaces ',' = ["kube-system", "kube-public", "monitoring"] := by
  decide

theorem isProtectedNamespace_eq (U : CaseTables) (name : String) :
    isProtectedNamespace U name =
      (strings.EqualFold U "kube-system" name || strings.EqualFold U "kube-public" name ||
        strings.EqualFold U "monitoring" name) := by
  simp [isProtectedNamespace, split_protectedNamespaces, Bool.or_assoc]

theorem selectNamespaces_eq (U : CaseTables) (names : List String) :
    selectNamespaces U names =
      names.filter (fun ns => !isProtectedNamespace U ns && strings.Contains ns "_test") := by
  simp [selectNamespaces, List.filter_filter, Bool.and_comm]

/-- A name that is a protected name up to the case of its ASCII letters is
protected. -/
theorem isProtectedNamespace_of_lower (U : CaseTables) (name : String)
    (h : strings.ToLower CaseTables.ascii name ∈ ["kube-system", "kube-public", "monitoring"]) :
    isProtectedNamespace U name = true := by
  have key : ∀ p : String, (∀ a ∈ p.data, a.toNat < 128 ∧ ¬ (65 ≤ a.toNat ∧ a.toNat ≤ 90)) →
      strings.ToLower CaseTables.ascii name = p → strings.EqualFold U p name = true := by
    intro p hp e
    apply equalFoldChars_of_lower U p.data name.data hp
    rw [← e]; rfl
  rw [isProtectedNamespace_eq]
  simp only [List.mem_cons, List.mem_singleton, List.not_mem_nil, or_false] at h
  rcases h with h | h | h
  · rw [key _ (by decide) h]; rfl
  · rw [key _ (by decide) h]; simp
  · rw [key _ (by decide) h]; simp

theorem hasCriticalLabels_eq (labelMap : List (String × String)) :
    hasCriticalLabels labelMap =
      (match labelMap.lookup "app.kubernetes.io/component" with
       | some val => val == "monitoring"
       | none => false) := by
  have h1 : strings.Split criticalLabels ',' = ["app.kubernetes.io/component=monitoring"] := by
    decide
  have h2 : strings.Split "app.kubernetes.io/component=monitoring" '=' =
      ["app.kubernetes.io/component", "monitoring"] := by decide
  simp [hasCriticalLabels, h1, h2]

/-! ## Namespace selection -/

/-- C1. When the namespace listing succeeds with `names`, `getTargetNamespaces`
returns exactly the names, in the order listed, that are not equal under case
folding to `kube-system`, `kube-public` or `monitoring` and that contain
`_test`. No name that is one of the three up to the case of its letters is
returned (`Kube-System` for one), and `billing_test` is returned whenever it
was listed. -/
theorem getTargetNamespaces_selects {σ : Type} (U : CaseTables) (c : Clientset σ) (s : σ)
    (names : List String) (h : (c.NamespacesList s).1 = .ok names) :
    ∃ out, (getTargetNamespaces U c s).val = .ok out ∧
      out = names.filter (fun ns =>
        !(strings.EqualFold U "kube-system" ns || strings.EqualFold U "kube-public" ns ||
          strings.EqualFold U "monitoring" ns) && strings.Contains ns "_test") ∧
      (∀ ns, strings.ToLower CaseTables.ascii ns ∈ ["kube-system", "kube-public", "monitoring"] →
        ns ∉ out) ∧
      "Kube-System" ∉ out ∧
      ("billing_test" ∈ names → "billing_test" ∈ out) := by
  refine ⟨selectNamespaces U names, ?_, ?_, ?_, ?_, ?_⟩
  · simp [getTargetNamespaces, h]
  · rw [selectNamespaces_eq]
    congr 1
    funext ns
    rw [isProtectedNamespace_eq]
  · intro ns hns hmem
    rw [selectNamespaces_eq, List.mem_filter] at hmem
    have := isProtectedNamespace_of_lower U ns hns
    simp [this] at hmem
  · intro hmem
    rw [selectNamespaces_eq, List.mem_filter] at hmem
    have : isProtectedNamespace U "Kube-System" = true := rfl
    simp [this] at hmem
  · intro hmem
    rw [selectNamespaces_eq, List.mem_filter]
    refine ⟨hmem, ?_⟩
    have h1 : isProtectedNamespace U "billing_test" = false := rfl
    have h2 : strings.Contains "billing_test" "_test" = true := by decide
    simp [h1, h2]

/-- The sample cluster lists `kube-system` and `billing_test`; the second is
selected. -/
theorem getTargetNamespaces_selects_witness :
    (getTargetNamespaces CaseTables.ascii Cluster.client sampleCluster).val =
      .ok ["billing_test"] := by
  obtain ⟨out, h1, h2, -⟩ := getTargetNamespaces_selects CaseTables.ascii Cluster.client
    sampleCluster ["kube-system", "billing_test"] rfl
  rw [h1, h2]
  rfl

/-! ## Eligibility -/

/-- C2. `shouldSkipPod` answers skip exactly when the deletion marker is set,
or the labels map `app.kubernetes.io/component` to `monitoring`, or no owner
reference is of kind `ReplicaSet`. It answers for every pod; the pod with nil
labels and no owner reference is skipped. -/
theorem shouldSkipPod_iff (pod : Pod) :
    (shouldSkipPod pod = true ↔
      (pod.DeletionTimestamp ≠ none ∨
        pod.Labels.lookup "app.kubernetes.io/component" = some "monitoring" ∨
        ∀ ref ∈ pod.OwnerReferences, ref.Kind ≠ "ReplicaSet")) ∧
    shouldSkipPod barePod = true := by
  refine ⟨?_, by decide⟩
  unfold shouldSkipPod
  rw [hasCriticalLabels_eq]
  cases hd : pod.DeletionTimestamp with
  | some t => simp
  | none =>
    cases hl : pod.Labels.lookup "app.kubernetes.io/component" with
    | none => simp [isDeploymentPod]
    | some v =>
      by_cases hv : v = "monitoring"
      · simp [hv]
      · simp [hv, isDeploymentPod]

/-! ## The main container -/

theorem find?_first {α : Type} (p : α → Bool) (before after : List α) (x : α)
    (hb : ∀ y ∈ before, p y = false) (hx : p x = true) :
    (before ++ x :: after).find? p = some x := by
  induction before with
  | nil => simp [hx]
  | cons y ys ih =>
    have hy : p y = false := hb y (List.mem_cons_self _ _)
    simp only [List.cons_append, List.find?_cons, hy]
    exact ih (fun z hz => hb z (List.mem_cons_of_mem _ hz))

theorem annotatedContainer_none (pod : Pod)
    (h : ∀ name, pod.Annotations.lookup "app.kubernetes.io/main-container" = some name →
      ∀ c ∈ pod.Containers, c.Name ≠ name) :
    annotatedContainer pod = none := by
  unfold annotatedContainer
  cases hl : pod.Annotations.lookup "app.kubernetes.io/main-container" with
  | none => rfl
  | some name =>
    simp only [List.find?_eq_none]
    intro c hc
    simpa using h name hl c hc

theorem getMainContainer_eq (U : CaseTables) (pod : Pod) :
    getMainContainer U pod =
      (match annotatedContainer pod with
       | some c => c.Name
       | none =>
         match pod.Containers.find? (fun c => strings.Contains (strings.ToLower U c.Name) "main") with
         | some c => c.Name
         | none =>
           match pod.Containers with
           | c :: _ => c.Name
           | [] => "") := rfl

/-- C9. The order in which `getMainContainer` looks for the main container:
(1) when the annotation `app.kubernetes.io/main-container` is there and is the
name of a container of the pod, that name is returned; (2) otherwise the name
of the first container, in the order declared, whose lower-cased name contains
`main`; (3) otherwise, when no name does, the name of the first container.
With the annotation `worker` and the containers `main-app` and `worker` the
answer is `worker`. -/
theorem getMainContainer_order (U : CaseTables) (pod : Pod) :
    (∀ name, pod.Annotations.lookup "app.kubernetes.io/main-container" = some name →
      (∃ c ∈ pod.Containers, c.Name = name) → getMainContainer U pod = name) ∧
    ((∀ name, pod.Annotations.lookup "app.kubernetes.io/main-container" = some name →
        ∀ c ∈ pod.Containers, c.Name ≠ name) →
      (∀ before c after, pod.Containers = before ++ c :: after →
        (∀ x ∈ before, strings.Contains (strings.ToLower U x.Name) "main" = false) →
        strings.Contains (strings.ToLower U c.Name) "main" = true →
        getMainContainer U pod = c.Name) ∧
      ((∀ x ∈ pod.Containers, strings.Contains (strings.ToLower U x.Name) "main" = false) →
        ∀ c rest, pod.Containers = c :: rest → getMainContainer U pod = c.Name)) ∧
    getMainContainer U workerPod = "worker" := by
  refine ⟨?_, ?_, rfl⟩
  · intro name hl ⟨c, hc, hcn⟩
    rw [getMainContainer_eq]
    unfold annotatedContainer
    rw [hl]
    cases hf : pod.Containers.find? (fun c => c.Name == name) with
    | none =>
      rw [List.find?_eq_none] at hf
      exact absurd (by simpa using hcn) (hf c hc)
    | some k =>
      have hk := List.find?_some hf
      simp only [hf]
      simpa using hk
  · intro hno
    have ha := annotatedContainer_none pod hno
    refine ⟨?_, ?_⟩
    · intro before c after hsplit hb hc
      rw [getMainContainer_eq, ha, hsplit]
      simp only
      rw [find?_first (fun c => strings.Contains (strings.ToLower U c.Name) "main") before after c
        hb hc]
    · intro hnone c rest hcs
      have hf : pod.Containers.find?
          (fun c => strings.Contains (strings.ToLower U c.Name) "main") = none := by
        rw [List.find?_eq_none]
        intro x hx
        simp [hnone x hx]
      rw [getMainContainer_eq, ha]
      simp only
      rw [hf, hcs]

/-- What `getMainContainer` returns for a pod with a container is the name of
one of its containers. -/
theorem getMainContainer_mem (U : CaseTables) (pod : Pod) (h : pod.Containers ≠ []) :
    ∃ k ∈ pod.Containers, getMainContainer U pod = k.Name := by
  rw [getMainContainer_eq]
  cases ha : annotatedContainer pod with
  | some c =>
    refine ⟨c, ?_, rfl⟩
    unfold annotatedContainer at ha
    cases hl : pod.Annotations.lookup "app.kubernetes.io/main-container" with
    | none => rw [hl] at ha; cases ha
    | some name => rw [hl] at ha; exact List.mem_of_find?_eq_some ha
  | none =>
    cases hf : pod.Containers.find?
        (fun c => strings.Contains (strings.ToLower U c.Name) "main") with
    | some c => exact ⟨c, List.mem_of_find?_eq_some hf, rfl⟩
    | none =>
      cases hc : pod.Containers with
      | nil => exact absurd hc h
      | cons c rest => exact ⟨c, List.mem_cons_self _ _, rfl⟩

/-- C10, as stated, fails: a pod with one container, whose name is empty,
gets the empty string, the outcome that stands for a pod without container. -/
theorem getMainContainer_unnamed :
    unnamedContainerPod.Containers ≠ [] ∧
      getMainContainer CaseTables.ascii unnamedContainerPod = "" := by
  decide

/-- C10, amended. For a pod with at least one container and no container of
the empty name, `getMainContainer` returns the name of one of its containers,
which is not the empty string. The empty string is what `isJavaWithoutPinpoint`
reads as a pod without valid container: it then answers compliant and runs no
probe. -/
theorem getMainContainer_nonempty {σ : Type} (U : CaseTables) (c : Clientset σ) (s : σ)
    (pod : Pod) (h : pod.Containers ≠ []) (hn : ∀ k ∈ pod.Containers, k.Name ≠ "") :
    (∃ k ∈ pod.Containers, getMainContainer U pod = k.Name) ∧
    getMainContainer U pod ≠ "" ∧
    (∀ other : Pod, getMainContainer U other = "" →
      (isJavaWithoutPinpoint U c other s).val = false ∧
      (isJavaWithoutPinpoint U c other s).events =
        [.Log (.noValidContainer other.Namespace other.Name)]) := by
  obtain ⟨k, hk, hkn⟩ := getMainContainer_mem U pod h
  refine ⟨⟨k, hk, hkn⟩, ?_, ?_⟩
  · rw [hkn]; exact hn k hk
  · intro other ho
    simp [isJavaWithoutPinpoint, ho]

/-- The sample pod has the one container `app`, which is its main container. -/
theorem getMainContainer_nonempty_witness :
    getMainContainer CaseTables.ascii samplePod ≠ "" :=
  (getMainContainer_nonempty CaseTables.ascii Cluster.client sampleCluster samplePod
    (by decide) (by decide)).2.1

/-! ## The compliance verdict -/

/-- C6. For a pod with a main container, `isJavaWithoutPinpoint` reports the
pod non-compliant exactly when the first probe (the managed runtime) answers
true and the second probe (the agent), run after it, answers false. -/
theorem isJavaWithoutPinpoint_verdict {σ : Type} (U : CaseTables) (c : Clientset σ) (pod : Pod)
    (s : σ) (h : getMainContainer U pod ≠ "") :
    (isJavaWithoutPinpoint U c pod s).val = true ↔
      ((checkJavaProcess c pod (getMainContainer U pod) s).val = true ∧
        (checkPinpointAgent c pod (getMainContainer U pod)
          (checkJavaProcess c pod (getMainContainer U pod) s).state).val = false) := by
  simp [isJavaWithoutPinpoint, h]

/-- In the sample cluster the sample pod runs the managed runtime without the
agent: it is reported non-compliant. -/
theorem isJavaWithoutPinpoint_verdict_witness :
    (isJavaWithoutPinpoint CaseTables.ascii Cluster.client samplePod sampleCluster).val = true :=
  (isJavaWithoutPinpoint_verdict CaseTables.ascii Cluster.client samplePod sampleCluster
    (by decide)).mpr ⟨rfl, rfl⟩

/-! ## Owner chain and remediation -/

theorem patchCalls_append (a b : List Event) :
    patchCalls (a ++ b) = patchCalls a ++ patchCalls b := by
  simp [patchCalls, List.filterMap_append]

theorem findParentDeployment_patchCalls {σ : Type} (c : Clientset σ) (pod : Pod) (s : σ) :
    patchCalls (findParentDeployment c pod s).events = [] := by
  unfold findParentDeployment
  simp only
  split
  · rfl
  · split
    · rfl
    · split <;> rfl

theorem scaleDeployment_patchCalls {σ : Type} (c : Clientset σ) (d : Deployment) (n : Int)
    (s : σ) :
    patchCalls (scaleDeployment c d n s).events =
      [(d.Namespace, d.Name, PatchType.StrategicMergePatchType,
        patchDocument (timestamp (c.Now s).1) n)] := rfl

theorem getReplicaSet_ok_iff {σ : Type} (c : Clientset σ) (ns name : String) (s : σ)
    (rs : ReplicaSet) :
    (c.GetReplicaSet ns name s).1 = (rs, none) ↔
      name ≠ "" ∧ (c.ReplicaSetsGet ns name s).1 = .ok rs := by
  unfold Clientset.GetReplicaSet
  by_cases hn : name = ""
  · simp [hn]
  · cases h : (c.ReplicaSetsGet ns name s).1 <;> simp [hn, h]

theorem getReplicaSet_state {σ : Type} (c : Clientset σ) (ns name : String) (s : σ)
    (hn : name ≠ "") :
    (c.GetReplicaSet ns name s).2 = (c.ReplicaSetsGet ns name s).2 := by
  unfold Clientset.GetReplicaSet
  cases h : (c.ReplicaSetsGet ns name s).1 <;> simp [hn, h]

theorem getDeployment_ok_iff {σ : Type} (c : Clientset σ) (ns name : String) (s : σ)
    (d : Deployment) :
    (c.GetDeployment ns name s).1 = (d, none) ↔
      name ≠ "" ∧ (c.DeploymentsGet ns name s).1 = .ok d := by
  unfold Clientset.GetDeployment
  by_cases hn : name = ""
  · simp [hn]
  · cases h : (c.DeploymentsGet ns name s).1 <;> simp [hn, h]

/-- When the chain resolves: the pair `findParentDeployment` returns is a
Deployment without error exactly when both references are there, both names
are not empty and both requests are answered. -/
theorem findParentDeployment_ok_iff {σ : Type} (c : Clientset σ) (pod : Pod) (s : σ)
    (d : Deployment) :
    (findParentDeployment c pod s).val = (some d, none) ↔
      ∃ ref rs dref,
        pod.OwnerReferences.find? (fun ref => ref.Kind == "ReplicaSet") = some ref ∧
        ref.Name ≠ "" ∧
        (c.ReplicaSetsGet pod.Namespace ref.Name s).1 = .ok rs ∧
        rs.OwnerReferences.find? (fun ref => ref.Kind == "Deployment") = some dref ∧
        dref.Name ≠ "" ∧
        (c.DeploymentsGet pod.Namespace dref.Name
          (c.ReplicaSetsGet pod.Namespace ref.Name s).2).1 = .ok d := by
  constructor
  · intro h
    unfold findParentDeployment at h
    cases h1 : pod.OwnerReferences.find? (fun ref => ref.Kind == "ReplicaSet") with
    | none => simp [h1] at h
    | some ref =>
      by_cases h2 : ref.Name = ""
      · simp [h1, h2] at h
      · have hst := getReplicaSet_state c pod.Namespace ref.Name s h2
        cases h3 : (c.GetReplicaSet pod.Namespace ref.Name s).1 with
        | mk rs rerr =>
          cases rerr with
          | some err => simp [h1, h2, h3] at h
          | none =>
            have h3s := ((getReplicaSet_ok_iff c _ _ s rs).1 h3).2
            cases h4 : rs.OwnerReferences.find? (fun ref => ref.Kind == "Deployment") with
            | none => simp [h1, h2, h3, h4] at h
            | some dref =>
              simp only [h1, h2, h3, h4, if_false, Prod.mk.injEq, Option.some.injEq] at h
              have h5 : (c.GetDeployment pod.Namespace dref.Name
                  (c.GetReplicaSet pod.Namespace ref.Name s).2).1 = (d, none) :=
                Prod.ext h.1 h.2
              rw [hst, getDeployment_ok_iff] at h5
              exact ⟨ref, rs, dref, rfl, h2, h3s, h4, h5.1, h5.2⟩
  · rintro ⟨ref, rs, dref, h1, h2, h3, h4, h5, h6⟩
    have g3 := (getReplicaSet_ok_iff c pod.Namespace ref.Name s rs).2 ⟨h2, h3⟩
    have hst := getReplicaSet_state c pod.Namespace ref.Name s h2
    have g6 := (getDeployment_ok_iff c pod.Namespace dref.Name
      (c.ReplicaSetsGet pod.Namespace ref.Name s).2 d).2 ⟨h5, h6⟩
    simp [findParentDeployment, h1, h2, g3, h4, hst, g6]

/-- The pair `findParentDeployment` returns is never `nil` without error. -/
theorem findParentDeployment_pointer {σ : Type} (c : Clientset σ) (pod : Pod) (s : σ) :
    (findParentDeployment c pod s).val ≠ (none, none) := by
  unfold findParentDeployment
  simp only
  split
  · simp
  · split
    · simp
    · split <;> simp

/-- C3. When the owner chain of the pod resolves to the Deployment `d`: if
`d` already asks for 0 replicas, `handleNonCompliantPod` returns success, makes
no `Patch` call and leaves the cluster in the state the two reads left it;
otherwise (another count, or none) it makes exactly one `Patch` call, to the
namespace and name of `d`. -/
theorem handleNonCompliantPod_patch {σ : Type} (c : Clientset σ) (pod : Pod) (s : σ)
    (d : Deployment) (h : (findParentDeployment c pod s).val = (some d, none)) :
    (d.Replicas = some 0 →
      (handleNonCompliantPod c pod s).val = none ∧
      patchCalls (handleNonCompliantPod c pod s).events = [] ∧
      (handleNonCompliantPod c pod s).state = (findParentDeployment c pod s).state) ∧
    (d.Replicas ≠ some 0 →
      ∃ doc, patchCalls (handleNonCompliantPod c pod s).events =
        [(d.Namespace, d.Name, PatchType.StrategicMergePatchType, doc)]) := by
  constructor
  · intro h0
    simp [handleNonCompliantPod, h, h0, patchCalls_append, findParentDeployment_patchCalls]
    rfl
  · intro h0
    refine ⟨patchDocument (timestamp (c.Now (findParentDeployment c pod s).state).1) 0, ?_⟩
    simp only [handleNonCompliantPod, h, h0, if_false, patchCalls_append,
      findParentDeployment_patchCalls, scaleDeployment_patchCalls, List.nil_append]
    rfl

/-- The sample pod resolves to the sample Deployment, which asks for three
replicas: one `Patch` call. -/
theorem handleNonCompliantPod_patch_witness :
    (patchCalls (handleNonCompliantPod Cluster.client samplePod sampleCluster).events).length
      = 1 := by
  obtain ⟨doc, hdoc⟩ := (handleNonCompliantPod_patch Cluster.client samplePod sampleCluster
    sampleDeployment rfl).2 (by decide)
  rw [hdoc]
  rfl

/-- C4, as stated, fails: the document sent for the sample Deployment writes the
status marker and the time stamp under `metadata.labels`; it has no member
under `metadata.annotations`. -/
theorem scaleDeployment_no_annotations :
    ∃ doc, patchCalls (scaleDeployment Cluster.client sampleDeployment 0 sampleCluster).events =
        [("billing_test", "api", PatchType.StrategicMergePatchType, doc)] ∧
      doc.leaves.map (fun p => p.1) =
        [["metadata", "labels", "pinpoint-scanner/status"],
         ["metadata", "labels", "pinpoint-scanner/last-terminated"],
         ["spec", "replicas"]] ∧
      ¬ ∃ p ∈ doc.leaves, ["metadata", "annotations"] <+: p.1 :=
  ⟨_, rfl, by decide, by decide⟩

/-- C4, amended. For every Deployment and every reading of the clock, the one
merge document `scaleDeployment` sends, with `replicas` 0, sets `spec.replicas`
to 0 and writes the status marker `killed by pod-scanner` and the time stamp
of the action as labels, under `metadata.labels`; it holds no other field. -/
theorem scaleDeployment_document {σ : Type} (c : Clientset σ) (d : Deployment) (s : σ) :
    ∃ doc, patchCalls (scaleDeployment c d 0 s).events =
        [(d.Namespace, d.Name, PatchType.StrategicMergePatchType, doc)] ∧
      doc.leaves =
        [(["metadata", "labels", "pinpoint-scanner/status"], .str "killed by pod-scanner"),
         (["metadata", "labels", "pinpoint-scanner/last-terminated"],
            .str (strings.ReplaceAll (strings.ReplaceAll (c.Now s).1.Format ':' '-') '+' '-')),
         (["spec", "replicas"], .num 0)] :=
  ⟨_, rfl, rfl⟩

/-- What `findParentDeployment` returns on each of its paths, for every client.
With both references there and both `Get` answered, the pair is the Deployment
of the second `Get`, without error. Without ReplicaSet reference, with a failed
ReplicaSet `Get`, or without Deployment reference in the ReplicaSet, the pair
is `nil` and an error. With a failed Deployment `Get`, the pair is the one that
`Get` returned: its object, not `nil`, next to its error. -/
theorem findParentDeployment_outcomes {σ : Type} (c : Clientset σ) (pod : Pod) (s : σ) :
    (∀ ref rs dref d,
      pod.OwnerReferences.find? (fun ref => ref.Kind == "ReplicaSet") = some ref →
      (c.GetReplicaSet pod.Namespace ref.Name s).1 = (rs, none) →
      rs.OwnerReferences.find? (fun ref => ref.Kind == "Deployment") = some dref →
      (c.GetDeployment pod.Namespace dref.Name (c.GetReplicaSet pod.Namespace ref.Name s).2).1
        = (d, none) →
      (findParentDeployment c pod s).val = (some d, none)) ∧
    (pod.OwnerReferences.find? (fun ref => ref.Kind == "ReplicaSet") = none →
      ∃ err, (findParentDeployment c pod s).val = (none, some err)) ∧
    (∀ ref rs err, pod.OwnerReferences.find? (fun ref => ref.Kind == "ReplicaSet") = some ref →
      (c.GetReplicaSet pod.Namespace ref.Name s).1 = (rs, some err) →
      ∃ err, (findParentDeployment c pod s).val = (none, some err)) ∧
    (∀ ref rs, pod.OwnerReferences.find? (fun ref => ref.Kind == "ReplicaSet") = some ref →
      (c.GetReplicaSet pod.Namespace ref.Name s).1 = (rs, none) →
      rs.OwnerReferences.find? (fun ref => ref.Kind == "Deployment") = none →
      ∃ err, (findParentDeployment c pod s).val = (none, some err)) ∧
    (∀ ref rs dref obj err,
      pod.OwnerReferences.find? (fun ref => ref.Kind == "ReplicaSet") = some ref →
      (c.GetReplicaSet pod.Namespace ref.Name s).1 = (rs, none) →
      rs.OwnerReferences.find? (fun ref => ref.Kind == "Deployment") = some dref →
      (c.GetDeployment pod.Namespace dref.Name (c.GetReplicaSet pod.Namespace ref.Name s).2).1
        = (obj, some err) →
      (findParentDeployment c pod s).val = (some obj, some err)) := by
  have hname : ∀ (ref : OwnerReference) (rs : ReplicaSet),
      (c.GetReplicaSet pod.Namespace ref.Name s).1 = (rs, none) → ref.Name ≠ "" :=
    fun ref rs h => ((getReplicaSet_ok_iff c _ _ s rs).1 h).1
  refine ⟨?_, ?_, ?_, ?_, ?_⟩
  · intro ref rs dref d h1 h3 h4 h5
    simp [findParentDeployment, h1, hname ref rs h3, h3, h4, h5]
  · intro h1
    exact ⟨_, by simp [findParentDeployment, h1]; rfl⟩
  · intro ref rs err h1 h3
    by_cases h2 : ref.Name = ""
    · exact ⟨_, by simp [findParentDeployment, h1, h2]; rfl⟩
    · exact ⟨err, by simp [findParentDeployment, h1, h2, h3]⟩
  · intro ref rs h1 h3 h4
    exact ⟨_, by simp [findParentDeployment, h1, hname ref rs h3, h3, h4]; rfl⟩
  · intro ref rs dref obj err h1 h3 h4 h5
    simp [findParentDeployment, h1, hname ref rs h3, h3, h4, h5]

/-- C5. The resolver returns the Deployment when the chain is whole, and `nil`
with an error when the ReplicaSet `Get` fails; but when the Deployment `Get`
fails it returns a Deployment next to the error. In the cluster whose
Deployment was deleted, the sample pod names a ReplicaSet the API returns, that
ReplicaSet names the Deployment `api`, the `Get` of `api` fails, and
`findParentDeployment` returns the error together with the object the client
had allocated, not `nil`: the claim's "never a controller object alongside"
does not hold there. In the cluster without the ReplicaSet the same function
returns `nil` with the error. -/
theorem findParentDeployment_object_with_error :
    samplePod.OwnerReferences.find? (fun ref => ref.Kind == "ReplicaSet") =
        some { Kind := "ReplicaSet", Name := "api-7d4b9c" } ∧
      (Cluster.client.GetReplicaSet "billing_test" "api-7d4b9c" orphanCluster).1 =
        (sampleReplicaSet, none) ∧
      sampleReplicaSet.OwnerReferences.find? (fun ref => ref.Kind == "Deployment") =
        some { Kind := "Deployment", Name := "api" } ∧
      (Cluster.client.GetDeployment "billing_test" "api" orphanCluster).1 =
        (Deployment.zero, some "deployment not found") ∧
      (findParentDeployment Cluster.client samplePod orphanCluster).val =
        (some Deployment.zero, some "deployment not found") ∧
      (findParentDeployment Cluster.client samplePod strayCluster).val =
        (none, some "replicaset not found") ∧
      (findParentDeployment Cluster.client samplePod sampleCluster).val =
        (some sampleDeployment, none) := by
  decide

/-! ## Remediation twice -/

theorem cluster_replicaSetsGet (ns name : String) (s : Cluster) :
    Cluster.client.ReplicaSetsGet ns name s =
      ((match s.ReplicaSets.find? (fun r => r.Namespace == ns && r.Name == name) with
        | some r => .ok r
        | none => .error "replicaset not found"), s) := by
  simp only [Cluster.client]
  split <;> simp_all

theorem cluster_deploymentsGet (ns name : String) (s : Cluster) :
    Cluster.client.DeploymentsGet ns name s =
      ((match s.Deployments.find? (fun d => d.Namespace == ns && d.Name == name) with
        | some d => .ok d
        | none => .error "deployment not found"), s) := by
  simp only [Cluster.client]
  split <;> simp_all

theorem cluster_findParentDeployment_state (pod : Pod) (s : Cluster) :
    (findParentDeployment Cluster.client pod s).state = s := by
  have hr : ∀ ns name, (Cluster.client.GetReplicaSet ns name s).2 = s := by
    intro ns name
    unfold Clientset.GetReplicaSet
    rw [cluster_replicaSetsGet]
    split
    · rfl
    · split <;> rfl
  have hd : ∀ ns name, (Cluster.client.GetDeployment ns name s).2 = s := by
    intro ns name
    unfold Clientset.GetDeployment
    rw [cluster_deploymentsGet]
    split
    · rfl
    · split <;> rfl
  unfold findParentDeployment
  simp only
  split
  · rfl
  · split
    · exact hr _ _
    · split
      · simp only [hr]; exact hd _ _
      · exact hr _ _

theorem find?_map_update {α : Type} (p : α → Bool) (g : α → α) (hg : ∀ x, p (g x) = p x)
    (l : List α) :
    (l.map (fun x => if p x then g x else x)).find? p = (l.find? p).map g := by
  induction l with
  | nil => rfl
  | cons x xs ih =>
    by_cases hx : p x = true
    · simp [List.find?_cons, hx, hg]
    · have hx2 : p x = false := by simpa using hx
      simp [List.find?_cons, hx2, ih]

theorem cluster_deploymentsGet_ok (ns name : String) (s : Cluster) (d : Deployment) :
    (Cluster.client.DeploymentsGet ns name s).1 = .ok d ↔
      s.Deployments.find? (fun d => d.Namespace == ns && d.Name == name) = some d := by
  rw [cluster_deploymentsGet]
  cases s.Deployments.find? (fun d => d.Namespace == ns && d.Name == name) <;> simp

theorem cluster_deploymentsPatch (ns name : String) (pt : PatchType) (doc : JSON) (s : Cluster)
    (d : Deployment) (hw : s.ReadOnly = false)
    (hd : s.Deployments.find? (fun d => d.Namespace == ns && d.Name == name) = some d) :
    Cluster.client.DeploymentsPatch ns name pt doc s = (none, s.patched ns name doc) := by
  have hany : s.Deployments.any (fun d => d.Namespace == ns && d.Name == name) = true := by
    have hp := List.find?_some hd
    rw [List.any_eq_true]
    exact ⟨d, List.mem_of_find?_eq_some hd, hp⟩
  simp only [Cluster.client, hw, hany, Cluster.patched]
  simp

theorem cluster_patched_get (ns name : String) (doc : JSON) (s : Cluster) (d : Deployment)
    (hd : s.Deployments.find? (fun d => d.Namespace == ns && d.Name == name) = some d) :
    (s.patched ns name doc).Deployments.find? (fun d => d.Namespace == ns && d.Name == name) =
      some (applyMerge doc d) := by
  have := find?_map_update (fun d : Deployment => d.Namespace == ns && d.Name == name)
    (applyMerge doc) (fun x => rfl) s.Deployments
  simp only [Cluster.patched]
  rw [this, hd]
  rfl

/-- What one call of `handleNonCompliantPod` does in a cluster held in memory
that accepts patches, for a pod whose chain resolves to `d`. -/
theorem cluster_handle (s : Cluster) (pod : Pod) (d : Deployment)
    (h : (findParentDeployment Cluster.client pod s).val = (some d, none))
    (hw : s.ReadOnly = false) :
    (handleNonCompliantPod Cluster.client pod s).val = none ∧
    (d.Replicas = some 0 →
      (handleNonCompliantPod Cluster.client pod s).state = s ∧
      patchCalls (handleNonCompliantPod Cluster.client pod s).events = []) ∧
    (d.Replicas ≠ some 0 →
      (handleNonCompliantPod Cluster.client pod s).state =
        s.patched d.Namespace d.Name (patchDocument (timestamp s.Clock) 0) ∧
      (patchCalls (handleNonCompliantPod Cluster.client pod s).events).length = 1) := by
  have hst := cluster_findParentDeployment_state pod s
  obtain ⟨ref, rs, dref, h1, h2, h3, h4, h4n, h5⟩ := (findParentDeployment_ok_iff _ _ _ _).1 h
  rw [cluster_replicaSetsGet] at h5
  simp only at h5
  rw [cluster_deploymentsGet_ok] at h5
  have hkey := List.find?_some h5
  simp only [Bool.and_eq_true, beq_iff_eq] at hkey
  have h5d : s.Deployments.find? (fun x => x.Namespace == d.Namespace && x.Name == d.Name)
      = some d := by rw [hkey.1, hkey.2]; exact h5
  by_cases h0 : d.Replicas = some 0
  · simp [handleNonCompliantPod, h, h0, hst, patchCalls_append, findParentDeployment_patchCalls]
    rfl
  · have hp := cluster_deploymentsPatch d.Namespace d.Name PatchType.StrategicMergePatchType
      (patchDocument (timestamp s.Clock) 0) s d hw h5d
    have hnow : Cluster.client.Now s = (s.Clock, s) := rfl
    simp only [handleNonCompliantPod, h, h0, hst, scaleDeployment, hnow, hp, if_false,
      patchCalls_append, findParentDeployment_patchCalls, false_imp_iff, true_and,
      not_false_eq_true, true_imp_iff, List.nil_append]
    exact fun _ => rfl

/-- C7, as stated, fails: in the cluster whose Deployment is already at 0
replicas the chain of the sample pod resolves to that Deployment before both
calls, and the two calls together make no `Patch` call, not one. -/
theorem handleNonCompliantPod_twice_none :
    (findParentDeployment Cluster.client samplePod scaledCluster).val =
        (some { sampleDeployment with Replicas := some 0 }, none) ∧
      (findParentDeployment Cluster.client samplePod
        (handleNonCompliantPod Cluster.client samplePod scaledCluster).state).val =
        (some { sampleDeployment with Replicas := some 0 }, none) ∧
      (patchCalls (handleNonCompliantPodTwice Cluster.client samplePod scaledCluster).events).length
        = 0 :=
  ⟨rfl, rfl, rfl⟩

/-- C7, amended. In a cluster held in memory that accepts patches, for a pod
whose chain resolves to the Deployment `d`, two calls of `handleNonCompliantPod`
in succession both return success and together make one `Patch` call when `d`
did not ask for 0 replicas, and none when it already did. Before the second
call the chain resolves to the Deployment of the same namespace and name, which
asks for 0 replicas; the second call makes no `Patch` call and leaves the
cluster as the first call left it. -/
theorem handleNonCompliantPod_twice (s : Cluster) (pod : Pod) (d : Deployment)
    (h : (findParentDeployment Cluster.client pod s).val = (some d, none))
    (hw : s.ReadOnly = false) :
    (handleNonCompliantPodTwice Cluster.client pod s).val = (none, none) ∧
    (patchCalls (handleNonCompliantPodTwice Cluster.client pod s).events).length =
      (if d.Replicas = some 0 then 0 else 1) ∧
    (∃ d2, (findParentDeployment Cluster.client pod
        (handleNonCompliantPod Cluster.client pod s).state).val = (some d2, none) ∧
      d2.Namespace = d.Namespace ∧ d2.Name = d.Name ∧ d2.Replicas = some 0) ∧
    patchCalls (handleNonCompliantPod Cluster.client pod
      (handleNonCompliantPod Cluster.client pod s).state).events = [] ∧
    (handleNonCompliantPodTwice Cluster.client pod s).state =
      (handleNonCompliantPod Cluster.client pod s).state := by
  obtain ⟨hv, hz, hnz⟩ := cluster_handle s pod d h hw
  -- the chain before the second call
  have hchain : ∃ d2, (findParentDeployment Cluster.client pod
      (handleNonCompliantPod Cluster.client pod s).state).val = (some d2, none) ∧
      d2.Namespace = d.Namespace ∧ d2.Name = d.Name ∧ d2.Replicas = some 0 := by
    by_cases h0 : d.Replicas = some 0
    · exact ⟨d, by rw [(hz h0).1]; exact h, rfl, rfl, h0⟩
    · obtain ⟨ref, rs, dref, h1, h2, h3, h4, h4n, h5⟩ :=
        (findParentDeployment_ok_iff _ _ _ _).1 h
      rw [cluster_replicaSetsGet] at h5
      simp only at h5
      rw [cluster_deploymentsGet_ok] at h5
      have hkey := List.find?_some h5
      simp only [Bool.and_eq_true, beq_iff_eq] at hkey
      refine ⟨applyMerge (patchDocument (timestamp s.Clock) 0) d, ?_, rfl, rfl, rfl⟩
      rw [(hnz h0).1, findParentDeployment_ok_iff]
      refine ⟨ref, rs, dref, h1, h2, ?_, h4, h4n, ?_⟩
      · rw [cluster_replicaSetsGet] at h3 ⊢
        exact h3
      · rw [cluster_replicaSetsGet]
        simp only
        rw [cluster_deploymentsGet_ok, hkey.1, hkey.2]
        rw [← hkey.1, ← hkey.2] at h5
        have := cluster_patched_get d.Namespace d.Name (patchDocument (timestamp s.Clock) 0) s d h5
        rw [hkey.1, hkey.2] at this
        exact this
  obtain ⟨d2, hd2, hns, hname, hrep⟩ := hchain
  have hw2 : (handleNonCompliantPod Cluster.client pod s).state.ReadOnly = false := by
    by_cases h0 : d.Replicas = some 0
    · rw [(hz h0).1]; exact hw
    · rw [(hnz h0).1]; exact hw
  obtain ⟨hv2, hz2, -⟩ := cluster_handle _ pod d2 hd2 hw2
  refine ⟨?_, ?_, ⟨d2, hd2, hns, hname, hrep⟩, (hz2 hrep).2, ?_⟩
  · simp [handleNonCompliantPodTwice, hv, hv2]
  · simp only [handleNonCompliantPodTwice, patchCalls_append, (hz2 hrep).2, List.append_nil]
    by_cases h0 : d.Replicas = some 0
    · simp [h0, (hz h0).2]
    · simp [h0, (hnz h0).2]
  · simp only [handleNonCompliantPodTwice]
    exact (hz2 hrep).1

/-- The sample cluster accepts patches and its Deployment asks for three
replicas: the two calls make one `Patch` call. -/
theorem handleNonCompliantPod_twice_witness :
    (patchCalls (handleNonCompliantPodTwice Cluster.client samplePod sampleCluster).events).length
      = 1 :=
  (handleNonCompliantPod_twice sampleCluster samplePod sampleDeployment rfl rfl).2.1

/-! ## The scan cycle -/

theorem listedNamespaces_append (a b : List Event) :
    listedNamespaces (a ++ b) = listedNamespaces a ++ listedNamespaces b := by
  simp [listedNamespaces, List.filterMap_append]

theorem checkedPods_append (a b : List Event) :
    checkedPods (a ++ b) = checkedPods a ++ checkedPods b := by
  simp [checkedPods, List.filterMap_append]

theorem listedPods_append (a b : List Event) :
    listedPods (a ++ b) = listedPods a ++ listedPods b := by
  induction a with
  | nil => rfl
  | cons e es ih =>
    cases e with
    | PodsList ns answer =>
      cases answer with
      | ok pods => simp [listedPods, ih]
      | error err => simp [listedPods, ih]
    | _ => simp [listedPods, ih]

theorem inner_projections (es : List Event) (h : ∀ e ∈ es, e.inner = true) :
    listedNamespaces es = [] ∧ listedPods es = [] ∧ checkedPods es = [] := by
  induction es with
  | nil => exact ⟨rfl, rfl, rfl⟩
  | cons e es ih =>
    obtain ⟨i1, i2, i3⟩ := ih (fun x hx => h x (List.mem_cons_of_mem _ hx))
    have he := h e (List.mem_cons_self _ _)
    cases e with
    | PodsList ns answer => simp [Event.inner] at he
    | Log line =>
      cases line <;>
        first
        | (simp [Event.inner] at he; done)
        | exact ⟨by simpa [listedNamespaces] using i1, by simpa [listedPods] using i2,
            by simpa [checkedPods] using i3⟩
    | _ =>
      exact ⟨by simpa [listedNamespaces] using i1, by simpa [listedPods] using i2,
        by simpa [checkedPods] using i3⟩

theorem execCommand_inner {σ : Type} (c : Clientset σ) (pod : Pod) (container : String)
    (cmd : List String) (s : σ) : ∀ e ∈ (execCommand c pod container cmd s).events, e.inner = true := by
  unfold execCommand
  simp only
  split <;> simp [Event.inner]

theorem isJavaWithoutPinpoint_inner {σ : Type} (U : CaseTables) (c : Clientset σ) (pod : Pod)
    (s : σ) : ∀ e ∈ (isJavaWithoutPinpoint U c pod s).events, e.inner = true := by
  unfold isJavaWithoutPinpoint
  simp only
  split
  · simp [Event.inner]
  · intro e he
    simp only [List.mem_append, List.mem_singleton, checkJavaProcess, checkPinpointAgent] at he
    rcases he with (he | he) | he
    · exact execCommand_inner _ _ _ _ _ e he
    · exact execCommand_inner _ _ _ _ _ e he
    · rw [he]; rfl

theorem findParentDeployment_inner {σ : Type} (c : Clientset σ) (pod : Pod) (s : σ) :
    ∀ e ∈ (findParentDeployment c pod s).events, e.inner = true := by
  unfold findParentDeployment
  simp only
  split
  · simp
  · split
    · simp [Event.inner]
    · split <;> simp [Event.inner]

theorem handleNonCompliantPod_inner {σ : Type} (c : Clientset σ) (pod : Pod) (s : σ) :
    ∀ e ∈ (handleNonCompliantPod c pod s).events, e.inner = true := by
  have hf := findParentDeployment_inner c pod s
  unfold handleNonCompliantPod
  simp only
  split
  · exact hf
  · exact hf
  · split
    · intro e he
      simp only [List.mem_append, List.mem_singleton] at he
      rcases he with he | he
      · exact hf e he
      · rw [he]; rfl
    · intro e he
      simp only [List.mem_append, List.mem_singleton, scaleDeployment] at he
      rcases he with (he | he) | he
      · exact hf e he
      · rw [he]; rfl
      · rw [he]; rfl

/-- The events of one pass of the inner loop: the line that announces the
check, unless the pod is skipped, then events of no interest here. -/
theorem scanPod_events {σ : Type} (U : CaseTables) (c : Clientset σ) (pod : Pod) (s : σ) :
    ∃ rest, (∀ e ∈ rest, e.inner = true) ∧
      (scanPod U c pod s).events =
        (if shouldSkipPod pod then [] else [.Log (.checkPod pod.Namespace pod.Name)]) ++ rest := by
  have hj := isJavaWithoutPinpoint_inner U c pod s
  have hk := handleNonCompliantPod_inner c pod (isJavaWithoutPinpoint U c pod s).state
  unfold scanPod
  by_cases hs : shouldSkipPod pod = true
  · refine ⟨[.Log (.skipPod pod.Namespace pod.Name)], ?_, by simp [hs]⟩
    intro e he
    rw [List.mem_singleton.1 he]; rfl
  · have hs2 : shouldSkipPod pod = false := by simpa using hs
    by_cases hv : (isJavaWithoutPinpoint U c pod s).val = true
    · refine ⟨(isJavaWithoutPinpoint U c pod s).events ++
        [.Log (.nonCompliantPod pod.Namespace pod.Name)] ++
        (handleNonCompliantPod c pod (isJavaWithoutPinpoint U c pod s).state).events ++
        (match (handleNonCompliantPod c pod (isJavaWithoutPinpoint U c pod s).state).val with
         | some err => [.Log (.handleFailed err)]
         | none => []), ?_, by simp [hs2, hv]⟩
      intro e he
      simp only [List.mem_append, List.mem_singleton] at he
      rcases he with ((he | he) | he) | he
      · exact hj e he
      · rw [he]; rfl
      · exact hk e he
      · cases hh : (handleNonCompliantPod c pod (isJavaWithoutPinpoint U c pod s).state).val with
        | none => rw [hh] at he; simp at he
        | some err =>
          rw [hh] at he
          rw [List.mem_singleton.1 he]; rfl
    · have hv2 : (isJavaWithoutPinpoint U c pod s).val = false := by simpa using hv
      exact ⟨(isJavaWithoutPinpoint U c pod s).events, hj, by simp [hs2, hv2]⟩

/-- One pass of the inner loop lists nothing and checks the pod unless it is
skipped. -/
theorem scanPod_projections {σ : Type} (U : CaseTables) (c : Clientset σ) (pod : Pod) (s : σ) :
    listedNamespaces (scanPod U c pod s).events = [] ∧
    listedPods (scanPod U c pod s).events = [] ∧
    checkedPods (scanPod U c pod s).events =
      ([pod].filter (fun p => !shouldSkipPod p)).map (fun p => (p.Namespace, p.Name)) := by
  obtain ⟨rest, hrest, hev⟩ := scanPod_events U c pod s
  obtain ⟨r1, r2, r3⟩ := inner_projections rest hrest
  rw [hev, listedNamespaces_append, listedPods_append, checkedPods_append, r1, r2, r3]
  by_cases hs : shouldSkipPod pod = true
  · simp only [hs, if_true, List.append_nil]
    exact ⟨rfl, rfl, by simp [hs]; rfl⟩
  · have hs2 : shouldSkipPod pod = false := by simpa using hs
    simp only [hs2, List.append_nil]
    exact ⟨rfl, rfl, by simp [hs2]; rfl⟩

theorem scanPods_projections {σ : Type} (U : CaseTables) (c : Clientset σ) :
    ∀ (pods : List Pod) (s : σ),
      listedNamespaces (scanPods U c pods s).events = [] ∧
      listedPods (scanPods U c pods s).events = [] ∧
      checkedPods (scanPods U c pods s).events =
        (pods.filter (fun p => !shouldSkipPod p)).map (fun p => (p.Namespace, p.Name))
  | [], _ => ⟨rfl, rfl, rfl⟩
  | pod :: rest, s => by
    obtain ⟨a1, a2, a3⟩ := scanPod_projections U c pod s
    obtain ⟨b1, b2, b3⟩ := scanPods_projections U c rest (scanPod U c pod s).state
    simp only [scanPods, listedNamespaces_append, listedPods_append, checkedPods_append,
      a1, a2, a3, b1, b2, b3]
    refine ⟨rfl, rfl, ?_⟩
    rw [← List.map_append, ← List.filter_append]
    rfl

/-- One pass of the outer loop asks for the pods of its namespace, and checks
the pods it was given that are not skipped. -/
theorem scanNamespace_projections {σ : Type} (U : CaseTables) (c : Clientset σ) (ns : String)
    (s : σ) :
    listedNamespaces (scanNamespace U c ns s).events = [ns] ∧
    checkedPods (scanNamespace U c ns s).events =
      ((listedPods (scanNamespace U c ns s).events).filter (fun p => !shouldSkipPod p)).map
        (fun p => (p.Namespace, p.Name)) := by
  simp only [scanNamespace]
  cases hl : (c.PodsList ns s).1 with
  | error err => exact ⟨rfl, rfl⟩
  | ok items =>
    obtain ⟨b1, b2, b3⟩ := scanPods_projections U c items (c.PodsList ns s).2
    simp only [listedNamespaces_append, listedPods_append, checkedPods_append, b1, b2, b3]
    exact ⟨rfl, by simp [listedPods, checkedPods]⟩

theorem scanNamespaces_projections {σ : Type} (U : CaseTables) (c : Clientset σ) :
    ∀ (namespaces : List String) (s : σ),
      listedNamespaces (scanNamespaces U c namespaces s).events = namespaces ∧
      checkedPods (scanNamespaces U c namespaces s).events =
        ((listedPods (scanNamespaces U c namespaces s).events).filter
          (fun p => !shouldSkipPod p)).map (fun p => (p.Namespace, p.Name))
  | [], _ => ⟨rfl, rfl⟩
  | ns :: rest, s => by
    obtain ⟨a1, a2⟩ := scanNamespace_projections U c ns s
    obtain ⟨b1, b2⟩ := scanNamespaces_projections U c rest (scanNamespace U c ns s).state
    simp only [scanNamespaces, listedNamespaces_append, listedPods_append, checkedPods_append,
      a1, b1, List.filter_append, List.map_append]
    refine ⟨rfl, ?_⟩
    rw [a2, b2]

/-- C8. `scanCluster` returns an error exactly when the namespace listing
fails. When the listing succeeds, the pods of every selected namespace are asked
for, in order, whatever the earlier listings and remediations answered; and
every pod that a successful pod listing returned and that is not skipped is
handed to the compliance check, in order. -/
theorem scanCluster_isolation {σ : Type} (U : CaseTables) (c : Clientset σ) (s : σ) :
    ((scanCluster U c s).val ≠ none ↔ ∃ err, (c.NamespacesList s).1 = .error err) ∧
    (∀ names, (c.NamespacesList s).1 = .ok names →
      listedNamespaces (scanCluster U c s).events = selectNamespaces U names) ∧
    checkedPods (scanCluster U c s).events =
      ((listedPods (scanCluster U c s).events).filter (fun p => !shouldSkipPod p)).map
        (fun p => (p.Namespace, p.Name)) := by
  cases hl : (c.NamespacesList s).1 with
  | error err =>
    simp [scanCluster, getTargetNamespaces, hl, listedNamespaces, listedPods, checkedPods]
  | ok names =>
    obtain ⟨b1, b2⟩ := scanNamespaces_projections U c (selectNamespaces U names)
      (c.NamespacesList s).2
    simp only [scanCluster, getTargetNamespaces, hl, listedNamespaces_append, listedPods_append,
      checkedPods_append, b1, b2]
    simp [listedNamespaces, listedPods, checkedPods]

/-- In the faulty cluster the listing of `a_test` fails and the remediation in
`b_test` is refused; the cycle returns no error, still lists `b_test` and
`c_test`, and checks the pod of each. -/
theorem scanCluster_isolation_witness :
    (scanCluster CaseTables.ascii Cluster.client faultyCluster).val = none ∧
      loggedFailures (scanCluster CaseTables.ascii Cluster.client faultyCluster).events =
        [.listPodsFailed "a_test" "pod listing failed",
         .handleFailed "patch refused"] ∧
      listedNamespaces (scanCluster CaseTables.ascii Cluster.client faultyCluster).events =
        ["a_test", "b_test", "c_test"] ∧
      checkedPods (scanCluster CaseTables.ascii Cluster.client faultyCluster).events =
        [("b_test", "api-7d4b9c-x2x9z"), ("c_test", "web-5f6d7c-k8s2p")] := by
  obtain ⟨h1, h2, h3⟩ := scanCluster_isolation CaseTables.ascii Cluster.client faultyCluster
  refine ⟨rfl, rfl, ?_, ?_⟩
  · rw [h2 _ rfl]; decide
  · rw [h3]; rfl

end PodScanner
